import Mathlib

/-!
Shallow embedding of the `ecs_metadata` Rust crate (src/metadata.rs,
src/error.rs, src/lib.rs).

Rust `String` is modelled as Lean `String`, `u16` as `Nat` with the
range enforced at the deserialization boundary (as serde does), JSON
values as an inductive `Json`, and the serde-derived `Deserialize`
implementations as explicit functions following serde's semantics for
the derived code: fields are looked up by their (renamed) wire key,
unrecognized keys are ignored (no `deny_unknown_fields` attribute is
present), a missing required key or a type mismatch is a failure.
-/

set_option autoImplicit false

namespace ECS

/-- JSON numbers as serde_json sees them for the purpose of `u16`
deserialization: a number literal without fractional part or exponent is
held as an integer (`u64`/`i64` in serde_json, unbounded here — any
value outside `u16` range is rejected identically either way), anything
else is held as a float, which the `u16` visitor rejects outright. -/
inductive JNumber where
  | int (i : Int) : JNumber
  | float : JNumber
  deriving DecidableEq, Repr

/-- JSON values. Objects are association lists of key/value pairs in
document order; the claims never exercise duplicate keys (which the
serde-derived code rejects), so objects are taken with distinct keys. -/
inductive Json where
  | null : Json
  | bool (b : Bool) : Json
  | num (n : JNumber) : Json
  | str (s : String) : Json
  | arr (elems : List Json) : Json
  | obj (fields : List (String × Json)) : Json

/-- Mirrors `struct ECSContainerLimits { cpu: u16, mem: u16 }`
(src/metadata.rs lines 33-39). The `u16` range `0..=65535` is
established by the deserializer. -/
structure ECSContainerLimits where
  cpu : Nat
  mem : Nat
  deriving DecidableEq, Repr

/-- Mirrors `struct ECSContainerLabels` (src/metadata.rs lines 18-31). -/
structure ECSContainerLabels where
  cluster : String
  container_name : String
  task_arn : String
  task_definition_family : String
  task_definition_version : String
  deriving DecidableEq, Repr

/-- Mirrors `struct ECSContainerMetadataV4` (src/metadata.rs lines 9-16). -/
structure ECSContainerMetadataV4 where
  docker_id : String
  image : String
  labels : ECSContainerLabels
  limits : ECSContainerLimits
  deriving DecidableEq, Repr

/-- Mirrors `pub struct ECSMetadata { metadata: ECSContainerMetadataV4 }`
(src/metadata.rs lines 41-43). -/
structure ECSMetadata where
  metadata : ECSContainerMetadataV4
  deriving DecidableEq, Repr

/-- Serde's field lookup in a JSON object: first entry with the given
key (keys are distinct in all inputs considered). -/
def getField : List (String × Json) → String → Option Json
  | [], _ => none
  | (k, v) :: rest, key => if k = key then some v else getField rest key

/-- Deserializing a `String` field: only a JSON string is accepted. -/
def parseString : Json → Option String
  | .str s => some s
  | _ => none

/-- Deserializing a `u16` field, following serde_json: an integer
number literal in `0..=65535` is accepted and its value preserved;
negative, out-of-range or floating-point numbers and non-numbers are
rejected. -/
def parseU16 : Json → Option Nat
  | .num (.int i) => if 0 ≤ i ∧ i ≤ 65535 then some i.toNat else none
  | _ => none

/-- Serde-derived `Deserialize for ECSContainerLimits`: wire keys
`"CPU"` and `"Memory"` (explicit renames, src/metadata.rs 35-38). -/
def ECSContainerLimits.deserialize (j : Json) : Option ECSContainerLimits :=
  match j with
  | .obj fields =>
    match getField fields "CPU" with
    | none => none
    | some vc =>
      match parseU16 vc with
      | none => none
      | some cpu =>
        match getField fields "Memory" with
        | none => none
        | some vm =>
          match parseU16 vm with
          | none => none
          | some mem => some ⟨cpu, mem⟩
  | _ => none

/-- Serde-derived `Deserialize for ECSContainerLabels`: the five dotted
wire keys from the explicit renames (src/metadata.rs 21-30). -/
def ECSContainerLabels.deserialize (j : Json) : Option ECSContainerLabels :=
  match j with
  | .obj fields =>
    match getField fields "com.amazonaws.ecs.cluster" with
    | none => none
    | some v1 =>
      match parseString v1 with
      | none => none
      | some cluster =>
        match getField fields "com.amazonaws.ecs.container-name" with
        | none => none
        | some v2 =>
          match parseString v2 with
          | none => none
          | some container_name =>
            match getField fields "com.amazonaws.ecs.task-arn" with
            | none => none
            | some v3 =>
              match parseString v3 with
              | none => none
              | some task_arn =>
                match getField fields "com.amazonaws.ecs.task-definition-family" with
                | none => none
                | some v4 =>
                  match parseString v4 with
                  | none => none
                  | some task_definition_family =>
                    match getField fields "com.amazonaws.ecs.task-definition-version" with
                    | none => none
                    | some v5 =>
                      match parseString v5 with
                      | none => none
                      | some task_definition_version =>
                        some ⟨cluster, container_name, task_arn,
                              task_definition_family, task_definition_version⟩
  | _ => none

/-- Serde-derived `Deserialize for ECSContainerMetadataV4`: PascalCase
renaming gives wire keys `"DockerId"`, `"Image"`, `"Labels"`,
`"Limits"` (src/metadata.rs 9-16). -/
def ECSContainerMetadataV4.deserialize (j : Json) : Option ECSContainerMetadataV4 :=
  match j with
  | .obj fields =>
    match getField fields "DockerId" with
    | none => none
    | some vd =>
      match parseString vd with
      | none => none
      | some docker_id =>
        match getField fields "Image" with
        | none => none
        | some vi =>
          match parseString vi with
          | none => none
          | some image =>
            match getField fields "Labels" with
            | none => none
            | some vl =>
              match ECSContainerLabels.deserialize vl with
              | none => none
              | some labels =>
                match getField fields "Limits" with
                | none => none
                | some vm =>
                  match ECSContainerLimits.deserialize vm with
                  | none => none
                  | some limits => some ⟨docker_id, image, labels, limits⟩
  | _ => none

/-- Rust `str::split(sep)` for a one-character separator, on the
character list of the string: always yields at least one piece; a
string with no separator yields the single piece equal to the whole
string. -/
def splitChar (sep : Char) : List Char → List (List Char)
  | [] => [[]]
  | c :: cs =>
    if c = sep then
      [] :: splitChar sep cs
    else
      match splitChar sep cs with
      | [] => [[c]]
      | h :: t => (c :: h) :: t

/-- Accessor `ECSMetadata::task_arn` (src/metadata.rs 60-62). -/
def ECSMetadata.task_arn (m : ECSMetadata) : String :=
  m.metadata.labels.task_arn

/-- Accessor `ECSMetadata::task_id` (src/metadata.rs 64-67):
`self.metadata.labels.task_arn.split('/').last().map(ToString::to_string)`. -/
def ECSMetadata.task_id (m : ECSMetadata) : Option String :=
  ((splitChar '/' m.metadata.labels.task_arn.data).getLast?).map
    (fun cs => String.mk cs)

/-- Accessor `ECSMetadata::cluster` (src/metadata.rs 69-72). -/
def ECSMetadata.cluster (m : ECSMetadata) : String :=
  m.metadata.labels.cluster

/-- Accessor `ECSMetadata::limits` (src/metadata.rs 74-77). -/
def ECSMetadata.limits (m : ECSMetadata) : ECSContainerLimits :=
  m.metadata.limits

/-- Accessor `ECSMetadata::docker_id` (src/metadata.rs 79-81). -/
def ECSMetadata.docker_id (m : ECSMetadata) : String :=
  m.metadata.docker_id

/-- Accessor `ECSMetadata::image` (src/metadata.rs 83-85). -/
def ECSMetadata.image (m : ECSMetadata) : String :=
  m.metadata.image

/-- Accessor `ECSMetadata::task_definition_family` (src/metadata.rs 87-89). -/
def ECSMetadata.task_definition_family (m : ECSMetadata) : String :=
  m.metadata.labels.task_definition_family

/-- Accessor `ECSMetadata::task_definition_revision` (src/metadata.rs 91-93):
note it reads the `task_definition_version` field. -/
def ECSMetadata.task_definition_revision (m : ECSMetadata) : String :=
  m.metadata.labels.task_definition_version

/-- Accessor `ECSMetadata::container_name` (src/metadata.rs 95-97). -/
def ECSMetadata.container_name (m : ECSMetadata) : String :=
  m.metadata.labels.container_name

/-- The environment variable name, `const ECS_METADATA_V4_ENV_VAR`
(src/metadata.rs line 5). -/
def ECS_METADATA_V4_ENV_VAR : String := "ECS_CONTAINER_METADATA_URI_V4"

/-- Kinds of `reqwest::Error` that `init` can wrap: a status error
produced by `Response::error_for_status` (which fires exactly on client
errors 400-499 and server errors 500-599), a body-decoding error from
`Response::json`, or a transport-level failure of `reqwest::get`. -/
inductive ReqwestErrorKind where
  | status (code : Nat) : ReqwestErrorKind
  | decode : ReqwestErrorKind
  | transport : ReqwestErrorKind
  deriving DecidableEq, Repr

/-- Mirrors `pub enum ECSMetadataError` (src/error.rs 5-13). -/
inductive ECSMetadataError where
  | FetchError : ECSMetadataError
  | HttpError (e : ReqwestErrorKind) : ECSMetadataError
  | EnvVarNotSet (name : String) : ECSMetadataError
  deriving DecidableEq, Repr

/-- Outcome of `reqwest::get(url).await` (redirect following included):
either a transport-level failure, or a final response with a status
code and a body; the body is `some j` when it decodes as the JSON value
`j` and `none` when it is absent or not valid JSON. -/
inductive FetchOutcome where
  | failure : FetchOutcome
  | response (status : Nat) (body : Option Json) : FetchOutcome

/-- Mirrors `ECSMetadata::init` (src/metadata.rs 47-58), with the
process environment and the network as explicit oracles: `envVar`
models `env::var` (`none` for both the absent and the non-unicode
case), `get` models `reqwest::get`. The second component of the result
is the trace of URLs actually requested, so "no network call" is the
empty trace. -/
def ECSMetadata.initModel (envVar : String → Option String)
    (get : String → FetchOutcome) :
    Except ECSMetadataError ECSMetadata × List String :=
  match envVar ECS_METADATA_V4_ENV_VAR with
  | none => (.error (.EnvVarNotSet ECS_METADATA_V4_ENV_VAR), [])
  | some url =>
    match get url with
    | .failure => (.error (.HttpError .transport), [url])
    | .response status body =>
      if 400 ≤ status ∧ status ≤ 599 then
        (.error (.HttpError (.status status)), [url])
      else
        match body with
        | none => (.error (.HttpError .decode), [url])
        | some j =>
          match ECSContainerMetadataV4.deserialize j with
          | none => (.error (.HttpError .decode), [url])
          | some md => (.ok ⟨md⟩, [url])

/-- The spec's reading of "the substring of `task_arn` after its last
`/`": drop everything up to and including the last occurrence of `sep`
(the whole list is kept when `sep` does not occur). -/
def afterLast (sep : Char) : List Char → List Char
  | [] => []
  | c :: cs =>
    if sep ∈ cs then afterLast sep cs
    else if c = sep then cs
    else c :: cs

/-- The task ARN from the repository's test and the spec's §8 example. -/
def sampleArn : String :=
  "arn:aws:ecs:us-east-1:939885537497:task/production/021447970bce4bd58069f1925cd87bc0"

/-- A fully populated metadata value matching the spec's §8 sample. -/
def sampleECS : ECSMetadata :=
  ⟨⟨"abc123", "repo:tag",
    ⟨"production", "streamer", sampleArn, "streamer", "12"⟩,
    ⟨2, 0⟩⟩⟩

/-- A metadata value whose `task_arn` contains no `/` character. -/
def noSlashECS : ECSMetadata :=
  ⟨⟨"d", "img", ⟨"cl", "cn", "abc123", "fam", "1"⟩, ⟨1, 2⟩⟩⟩

/-- The documented `"Labels"` object of §6: the five dotted wire keys
with arbitrary string values. -/
def labelFields (c cn ta tdf tdv : String) : List (String × Json) :=
  [("com.amazonaws.ecs.cluster", .str c),
   ("com.amazonaws.ecs.container-name", .str cn),
   ("com.amazonaws.ecs.task-arn", .str ta),
   ("com.amazonaws.ecs.task-definition-family", .str tdf),
   ("com.amazonaws.ecs.task-definition-version", .str tdv)]

/-- The documented `"Limits"` object of §6 with integer values. -/
def limitFields (cpu mem : Nat) : List (String × Json) :=
  [("CPU", .num (.int (cpu : Int))), ("Memory", .num (.int (mem : Int)))]

/-- The documented top-level object of §6. -/
def topFields (d i : String) (labels limits : List (String × Json)) :
    List (String × Json) :=
  [("DockerId", .str d), ("Image", .str i),
   ("Labels", .obj labels), ("Limits", .obj limits)]

/-- A schema-conforming JSON body with additional unrecognized entries
`x1`, `x2`, `x3` placed at the front of the top-level, `Labels` and
`Limits` objects respectively. -/
def schemaJsonExtra (d i c cn ta tdf tdv : String) (cpu mem : Nat)
    (x1 x2 x3 : List (String × Json)) : Json :=
  .obj (x1 ++ topFields d i (x2 ++ labelFields c cn ta tdf tdv)
    (x3 ++ limitFields cpu mem))

/-- A concrete schema-conforming body (the spec's §8 scenario values). -/
def goodBody : Json :=
  .obj (topFields "abc123" "repo:tag"
    (labelFields "production" "streamer" "x/task/production/XYZ" "streamer" "12")
    (limitFields 2 0))

/-- A 200-status body that is valid JSON but omits the required
`"DockerId"` key. -/
def noDockerIdJson : Json :=
  .obj [("Image", .str "repo:tag")]

end ECS

namespace ECS

theorem splitChar_ne_nil (sep : Char) (l : List Char) : splitChar sep l ≠ [] := by
  induction l with
  | nil => simp [splitChar]
  | cons c cs ih =>
    by_cases hc : c = sep
    · simp [splitChar, hc]
    · simp only [splitChar, if_neg hc]
      cases hs : splitChar sep cs with
      | nil => simp
      | cons a t => simp

theorem splitChar_of_not_mem {sep : Char} {l : List Char} (h : sep ∉ l) :
    splitChar sep l = [l] := by
  induction l with
  | nil => rfl
  | cons c cs ih =>
    have hc : ¬ c = sep := fun e => h (e ▸ List.mem_cons_self c cs)
    have hcs : sep ∉ cs := fun m => h (List.mem_cons_of_mem c m)
    simp [splitChar, hc, ih hcs]

theorem afterLast_of_not_mem {sep : Char} {l : List Char} (h : sep ∉ l) :
    afterLast sep l = l := by
  cases l with
  | nil => rfl
  | cons c cs =>
    have hc : ¬ c = sep := fun e => h (e ▸ List.mem_cons_self c cs)
    have hcs : sep ∉ cs := fun m => h (List.mem_cons_of_mem c m)
    simp [afterLast, hc, hcs]

theorem splitChar_length_of_mem {sep : Char} {l : List Char} (h : sep ∈ l) :
    2 ≤ (splitChar sep l).length := by
  induction l with
  | nil => cases h
  | cons c cs ih =>
    by_cases hc : c = sep
    · have h1 : 0 < (splitChar sep cs).length :=
        List.length_pos.mpr (splitChar_ne_nil sep cs)
      simp only [splitChar, if_pos hc, List.length_cons]
      omega
    · have hcs : sep ∈ cs := by
        rcases List.mem_cons.mp h with e | m
        · exact absurd e.symm hc
        · exact m
      have h2 := ih hcs
      simp only [splitChar, if_neg hc]
      cases hs : splitChar sep cs with
      | nil => exact absurd hs (splitChar_ne_nil sep cs)
      | cons a t =>
        rw [hs] at h2
        simp only [List.length_cons] at h2 ⊢
        omega

theorem getLast_splitChar (sep : Char) (l : List Char) :
    (splitChar sep l).getLast? = some (afterLast sep l) := by
  induction l with
  | nil => rfl
  | cons c cs ih =>
    by_cases hm : sep ∈ cs
    · by_cases hc : c = sep
      · simp only [splitChar, if_pos hc, afterLast, if_pos hm]
        cases hs : splitChar sep cs with
        | nil => exact absurd hs (splitChar_ne_nil sep cs)
        | cons a t =>
          rw [hs] at ih
          rw [List.getLast?_cons_cons, ih]
      · simp only [splitChar, if_neg hc, afterLast, if_pos hm]
        have hlen := splitChar_length_of_mem hm
        cases hs : splitChar sep cs with
        | nil => exact absurd hs (splitChar_ne_nil sep cs)
        | cons a t =>
          rw [hs] at ih hlen
          cases t with
          | nil => simp at hlen
          | cons b t2 =>
            rw [List.getLast?_cons_cons]
            rw [List.getLast?_cons_cons] at ih
            exact ih
    · by_cases hc : c = sep
      · simp only [splitChar, if_pos hc, afterLast, if_neg hm, if_pos hc,
          splitChar_of_not_mem hm]
        rfl
      · simp only [splitChar, if_neg hc, afterLast, if_neg hm, if_neg hc,
          splitChar_of_not_mem hm]
        rfl

theorem not_mem_afterLast (sep : Char) (l : List Char) : sep ∉ afterLast sep l := by
  induction l with
  | nil => simp [afterLast]
  | cons c cs ih =>
    by_cases hm : sep ∈ cs
    · simpa [afterLast, hm] using ih
    · by_cases hc : c = sep
      · simp only [afterLast, if_neg hm, if_pos hc]
        exact hm
      · simp only [afterLast, if_neg hm, if_neg hc]
        intro hmem
        rcases List.mem_cons.mp hmem with e | m
        · exact hc e.symm
        · exact hm m

theorem exists_decomp_of_mem {sep : Char} {l : List Char} (h : sep ∈ l) :
    ∃ pre, l = pre ++ sep :: afterLast sep l := by
  induction l with
  | nil => cases h
  | cons c cs ih =>
    by_cases hm : sep ∈ cs
    · obtain ⟨pre, hp⟩ := ih hm
      refine ⟨c :: pre, ?_⟩
      simp only [afterLast, if_pos hm, List.cons_append]
      exact congrArg (c :: ·) hp
    · have hc : c = sep := by
        rcases List.mem_cons.mp h with e | m
        · exact e.symm
        · exact absurd m hm
      refine ⟨[], ?_⟩
      simp [afterLast, hm, hc]

/-- Computation of `task_id` through `afterLast`: the accessor returns
exactly the characters after the last `/` of the stored `task_arn`. -/
theorem task_id_eq_afterLast (m : ECSMetadata) :
    m.task_id = some (String.mk (afterLast '/' m.metadata.labels.task_arn.data)) := by
  unfold ECSMetadata.task_id
  rw [getLast_splitChar]
  rfl

/-- C1, counterexample: on a metadata value whose `task_arn` is
`"abc123"` (no `/`), `task_id` does not return `none`; it returns the
full `task_arn` string wrapped in `some`, because Rust's
`split('/').last()` always yields at least the whole string. -/
theorem task_id_no_slash_cex :
    ('/' ∉ noSlashECS.task_arn.data) ∧ noSlashECS.task_id ≠ none ∧
      noSlashECS.task_id = some "abc123" := by
  refine ⟨by decide, by decide, by decide⟩

/-- C1, amended: for every metadata value whose `task_arn` contains no
`/`, `task_id` returns `some` of the full `task_arn` string — never
`none` and never an error. -/
theorem task_id_no_slash_full_arn (m : ECSMetadata)
    (h : '/' ∉ m.task_arn.data) : m.task_id = some m.task_arn := by
  have h' : '/' ∉ m.metadata.labels.task_arn.data := h
  rw [task_id_eq_afterLast, afterLast_of_not_mem h']
  rfl

theorem task_id_no_slash_full_arn_witness :
    ('/' ∉ noSlashECS.task_arn.data) ∧
      noSlashECS.task_id = some noSlashECS.task_arn :=
  ⟨by decide, task_id_no_slash_full_arn noSlashECS (by decide)⟩

/-- C2: whenever `task_arn` contains at least one `/`, `task_id`
returns `some t` where `t` is the substring after the last `/` (the
ARN splits as `pre ++ '/' :: t` with no `/` in `t`); and on the spec's
concrete ARN it returns `"021447970bce4bd58069f1925cd87bc0"`. -/
theorem task_id_after_last_slash :
    (∀ m : ECSMetadata, '/' ∈ m.task_arn.data →
      ∃ pre t, m.task_arn.data = pre ++ '/' :: t ∧ '/' ∉ t ∧
        m.task_id = some (String.mk t)) ∧
    sampleECS.task_id = some "021447970bce4bd58069f1925cd87bc0" := by
  constructor
  · intro m h
    obtain ⟨pre, hp⟩ := exists_decomp_of_mem h
    exact ⟨pre, afterLast '/' m.task_arn.data, hp,
      not_mem_afterLast _ _, task_id_eq_afterLast m⟩
  · decide

theorem task_id_after_last_slash_witness :
    ('/' ∈ sampleECS.task_arn.data) ∧
      ∃ pre t, sampleECS.task_arn.data = pre ++ '/' :: t ∧ '/' ∉ t ∧
        sampleECS.task_id = some (String.mk t) :=
  ⟨by decide, task_id_after_last_slash.1 sampleECS (by decide)⟩

theorem parseU16_ofNat (n : Nat) (h : n ≤ 65535) :
    parseU16 (.num (.int (n : Int))) = some n := by
  have hcond : 0 ≤ (n : Int) ∧ (n : Int) ≤ 65535 := by omega
  show (if 0 ≤ (n : Int) ∧ (n : Int) ≤ 65535 then some ((n : Int)).toNat else none)
    = some n
  rw [if_pos hcond]
  rfl

theorem parseU16_eq_some {v : Json} {n : Nat} :
    parseU16 v = some n ↔
      ∃ i : Int, v = .num (.int i) ∧ 0 ≤ i ∧ i ≤ 65535 ∧ n = i.toNat := by
  constructor
  · intro h
    cases v with
    | num nn =>
      cases nn with
      | int i =>
        have h' : (if 0 ≤ i ∧ i ≤ 65535 then some i.toNat else none) = some n := h
        by_cases hc : 0 ≤ i ∧ i ≤ 65535
        · rw [if_pos hc] at h'
          exact ⟨i, rfl, hc.1, hc.2, (Option.some.inj h').symm⟩
        · rw [if_neg hc] at h'
          cases h'
      | float => cases h
    | null => cases h
    | bool b => cases h
    | str s => cases h
    | arr a => cases h
    | obj o => cases h
  · rintro ⟨i, rfl, h1, h2, rfl⟩
    show (if 0 ≤ i ∧ i ≤ 65535 then some i.toNat else none) = some i.toNat
    rw [if_pos ⟨h1, h2⟩]

theorem getField_append_of_no_key (xs rest : List (String × Json)) (key : String)
    (h : ∀ p ∈ xs, p.1 ≠ key) :
    getField (xs ++ rest) key = getField rest key := by
  induction xs with
  | nil => rfl
  | cons p ps ih =>
    obtain ⟨k, v⟩ := p
    have hk : ¬ k = key := h ⟨k, v⟩ (List.mem_cons_self _ _)
    simp only [List.cons_append, getField, if_neg hk]
    exact ih (fun q hq => h q (List.mem_cons_of_mem _ hq))

/-- C3: parsing any JSON body carrying the documented wire keys with
string values for the labels and in-range integers for the limits
succeeds, and every accessor returns exactly the supplied value. -/
theorem parse_roundtrip
    (fields lf mf : List (String × Json)) (d i c cn ta tdf tdv : String)
    (cpu mem : Nat)
    (hd : getField fields "DockerId" = some (.str d))
    (hi : getField fields "Image" = some (.str i))
    (hl : getField fields "Labels" = some (.obj lf))
    (hlim : getField fields "Limits" = some (.obj mf))
    (h1 : getField lf "com.amazonaws.ecs.cluster" = some (.str c))
    (h2 : getField lf "com.amazonaws.ecs.container-name" = some (.str cn))
    (h3 : getField lf "com.amazonaws.ecs.task-arn" = some (.str ta))
    (h4 : getField lf "com.amazonaws.ecs.task-definition-family" = some (.str tdf))
    (h5 : getField lf "com.amazonaws.ecs.task-definition-version" = some (.str tdv))
    (hcpu : getField mf "CPU" = some (.num (.int (cpu : Int))))
    (hmem : getField mf "Memory" = some (.num (.int (mem : Int))))
    (hc : cpu ≤ 65535) (hm : mem ≤ 65535) :
    ∃ md, ECSContainerMetadataV4.deserialize (.obj fields) = some md ∧
      (ECSMetadata.mk md).docker_id = d ∧ (ECSMetadata.mk md).image = i ∧
      (ECSMetadata.mk md).cluster = c ∧ (ECSMetadata.mk md).container_name = cn ∧
      (ECSMetadata.mk md).task_arn = ta ∧
      (ECSMetadata.mk md).task_definition_family = tdf ∧
      (ECSMetadata.mk md).task_definition_revision = tdv ∧
      (ECSMetadata.mk md).limits = ⟨cpu, mem⟩ := by
  refine ⟨⟨d, i, ⟨c, cn, ta, tdf, tdv⟩, ⟨cpu, mem⟩⟩, ?_,
    rfl, rfl, rfl, rfl, rfl, rfl, rfl, rfl⟩
  simp only [ECSContainerMetadataV4.deserialize, hd, hi, hl, hlim,
    ECSContainerLabels.deserialize, h1, h2, h3, h4, h5,
    ECSContainerLimits.deserialize, hcpu, hmem, parseString,
    parseU16_ofNat cpu hc, parseU16_ofNat mem hm]

theorem parse_roundtrip_witness :
    ∃ md, ECSContainerMetadataV4.deserialize goodBody = some md ∧
      (ECSMetadata.mk md).docker_id = "abc123" ∧
      (ECSMetadata.mk md).image = "repo:tag" ∧
      (ECSMetadata.mk md).cluster = "production" ∧
      (ECSMetadata.mk md).container_name = "streamer" ∧
      (ECSMetadata.mk md).task_arn = "x/task/production/XYZ" ∧
      (ECSMetadata.mk md).task_definition_family = "streamer" ∧
      (ECSMetadata.mk md).task_definition_revision = "12" ∧
      (ECSMetadata.mk md).limits = ⟨2, 0⟩ :=
  parse_roundtrip _ _ _ _ _ _ _ _ _ _ 2 0
    rfl rfl rfl rfl rfl rfl rfl rfl rfl rfl rfl (by decide) (by decide)

/-- C7: a schema-conforming body whose `Limits.Memory` value is `0`
parses successfully and the resulting `limits` accessor reports
`mem = 0`; the zero is neither missing nor an error. -/
theorem parse_memory_zero
    (fields lf mf : List (String × Json)) (d i c cn ta tdf tdv : String)
    (cpu : Nat)
    (hd : getField fields "DockerId" = some (.str d))
    (hi : getField fields "Image" = some (.str i))
    (hl : getField fields "Labels" = some (.obj lf))
    (hlim : getField fields "Limits" = some (.obj mf))
    (h1 : getField lf "com.amazonaws.ecs.cluster" = some (.str c))
    (h2 : getField lf "com.amazonaws.ecs.container-name" = some (.str cn))
    (h3 : getField lf "com.amazonaws.ecs.task-arn" = some (.str ta))
    (h4 : getField lf "com.amazonaws.ecs.task-definition-family" = some (.str tdf))
    (h5 : getField lf "com.amazonaws.ecs.task-definition-version" = some (.str tdv))
    (hcpu : getField mf "CPU" = some (.num (.int (cpu : Int))))
    (hmem : getField mf "Memory" = some (.num (.int (0 : Int))))
    (hc : cpu ≤ 65535) :
    ∃ md, ECSContainerMetadataV4.deserialize (.obj fields) = some md ∧
      (ECSMetadata.mk md).limits.mem = 0 := by
  refine ⟨⟨d, i, ⟨c, cn, ta, tdf, tdv⟩, ⟨cpu, 0⟩⟩, ?_, rfl⟩
  have h0 : parseU16 (.num (.int (0 : Int))) = some 0 := rfl
  simp only [ECSContainerMetadataV4.deserialize, hd, hi, hl, hlim,
    ECSContainerLabels.deserialize, h1, h2, h3, h4, h5,
    ECSContainerLimits.deserialize, hcpu, hmem, parseString,
    parseU16_ofNat cpu hc, h0]

theorem parse_memory_zero_witness :
    ∃ md, ECSContainerMetadataV4.deserialize goodBody = some md ∧
      (ECSMetadata.mk md).limits.mem = 0 :=
  parse_memory_zero _ _ _ _ _ _ _ _ _ _ 2
    rfl rfl rfl rfl rfl rfl rfl rfl rfl rfl rfl (by decide)

/-- C8: a schema-conforming body with additional unrecognized entries
at the top level, inside `Labels` and inside `Limits` still parses, and
the parse result — hence every accessor — is exactly the one obtained
from the documented fields alone. -/
theorem parse_ignores_unknown_fields
    (d i c cn ta tdf tdv : String) (cpu mem : Nat)
    (x1 x2 x3 : List (String × Json))
    (hc : cpu ≤ 65535) (hm : mem ≤ 65535)
    (hx1 : ∀ p ∈ x1, p.1 ∉ (["DockerId", "Image", "Labels", "Limits"] : List String))
    (hx2 : ∀ p ∈ x2, p.1 ∉ (["com.amazonaws.ecs.cluster",
      "com.amazonaws.ecs.container-name", "com.amazonaws.ecs.task-arn",
      "com.amazonaws.ecs.task-definition-family",
      "com.amazonaws.ecs.task-definition-version"] : List String))
    (hx3 : ∀ p ∈ x3, p.1 ∉ (["CPU", "Memory"] : List String)) :
    ECSContainerMetadataV4.deserialize
        (schemaJsonExtra d i c cn ta tdf tdv cpu mem x1 x2 x3)
      = some ⟨d, i, ⟨c, cn, ta, tdf, tdv⟩, ⟨cpu, mem⟩⟩ := by
  simp only [List.mem_cons, List.not_mem_nil, or_false, not_or] at hx1 hx2 hx3
  have g1 : getField (x1 ++ topFields d i (x2 ++ labelFields c cn ta tdf tdv)
      (x3 ++ limitFields cpu mem)) "DockerId" = some (.str d) := by
    rw [getField_append_of_no_key _ _ _ (fun p hp => (hx1 p hp).1)]
    rfl
  have g2 : getField (x1 ++ topFields d i (x2 ++ labelFields c cn ta tdf tdv)
      (x3 ++ limitFields cpu mem)) "Image" = some (.str i) := by
    rw [getField_append_of_no_key _ _ _ (fun p hp => (hx1 p hp).2.1)]
    rfl
  have g3 : getField (x1 ++ topFields d i (x2 ++ labelFields c cn ta tdf tdv)
      (x3 ++ limitFields cpu mem)) "Labels"
      = some (.obj (x2 ++ labelFields c cn ta tdf tdv)) := by
    rw [getField_append_of_no_key _ _ _ (fun p hp => (hx1 p hp).2.2.1)]
    rfl
  have g4 : getField (x1 ++ topFields d i (x2 ++ labelFields c cn ta tdf tdv)
      (x3 ++ limitFields cpu mem)) "Limits"
      = some (.obj (x3 ++ limitFields cpu mem)) := by
    rw [getField_append_of_no_key _ _ _ (fun p hp => (hx1 p hp).2.2.2)]
    rfl
  have g5 : getField (x2 ++ labelFields c cn ta tdf tdv)
      "com.amazonaws.ecs.cluster" = some (.str c) := by
    rw [getField_append_of_no_key _ _ _ (fun p hp => (hx2 p hp).1)]
    rfl
  have g6 : getField (x2 ++ labelFields c cn ta tdf tdv)
      "com.amazonaws.ecs.container-name" = some (.str cn) := by
    rw [getField_append_of_no_key _ _ _ (fun p hp => (hx2 p hp).2.1)]
    rfl
  have g7 : getField (x2 ++ labelFields c cn ta tdf tdv)
      "com.amazonaws.ecs.task-arn" = some (.str ta) := by
    rw [getField_append_of_no_key _ _ _ (fun p hp => (hx2 p hp).2.2.1)]
    rfl
  have g8 : getField (x2 ++ labelFields c cn ta tdf tdv)
      "com.amazonaws.ecs.task-definition-family" = some (.str tdf) := by
    rw [getField_append_of_no_key _ _ _ (fun p hp => (hx2 p hp).2.2.2.1)]
    rfl
  have g9 : getField (x2 ++ labelFields c cn ta tdf tdv)
      "com.amazonaws.ecs.task-definition-version" = some (.str tdv) := by
    rw [getField_append_of_no_key _ _ _ (fun p hp => (hx2 p hp).2.2.2.2)]
    rfl
  have g10 : getField (x3 ++ limitFields cpu mem) "CPU"
      = some (.num (.int (cpu : Int))) := by
    rw [getField_append_of_no_key _ _ _ (fun p hp => (hx3 p hp).1)]
    rfl
  have g11 : getField (x3 ++ limitFields cpu mem) "Memory"
      = some (.num (.int (mem : Int))) := by
    rw [getField_append_of_no_key _ _ _ (fun p hp => (hx3 p hp).2)]
    rfl
  simp only [schemaJsonExtra, ECSContainerMetadataV4.deserialize, g1, g2, g3, g4,
    ECSContainerLabels.deserialize, g5, g6, g7, g8, g9,
    ECSContainerLimits.deserialize, g10, g11, parseString,
    parseU16_ofNat cpu hc, parseU16_ofNat mem hm]

theorem parse_ignores_unknown_fields_witness :
    ECSContainerMetadataV4.deserialize
        (schemaJsonExtra "abc123" "repo:tag" "production" "streamer"
          "x/task/production/XYZ" "streamer" "12" 2 0
          [("ContainerARN", .str "arn:x")] [("extra.label", .null)]
          [("Swap", .num .float)])
      = some ⟨"abc123", "repo:tag",
          ⟨"production", "streamer", "x/task/production/XYZ", "streamer", "12"⟩,
          ⟨2, 0⟩⟩ :=
  parse_ignores_unknown_fields _ _ _ _ _ _ _ 2 0 _ _ _
    (by decide) (by decide) (by decide) (by decide) (by decide)

/-- C9: the `Limits` deserializer accepts exactly the JSON bodies whose
`CPU` and `Memory` are integer numbers in `0..=65535`, and then the
`cpu` and `mem` fields hold exactly those values; negative,
out-of-range, floating-point or non-numeric values never parse. -/
theorem limits_range_exact (v w : Json) (l : ECSContainerLimits) :
    ECSContainerLimits.deserialize (.obj [("CPU", v), ("Memory", w)]) = some l ↔
      ∃ i j : Int, v = .num (.int i) ∧ w = .num (.int j) ∧
        0 ≤ i ∧ i ≤ 65535 ∧ 0 ≤ j ∧ j ≤ 65535 ∧
        l.cpu = i.toNat ∧ l.mem = j.toNat := by
  obtain ⟨lc, lm⟩ := l
  have e : ECSContainerLimits.deserialize (.obj [("CPU", v), ("Memory", w)]) =
      (match parseU16 v with
        | none => none
        | some cpu =>
          match parseU16 w with
          | none => none
          | some mem => some ⟨cpu, mem⟩) := rfl
  rw [e]
  constructor
  · intro h
    cases hv : parseU16 v with
    | none => rw [hv] at h; cases h
    | some cpu =>
      rw [hv] at h
      cases hw : parseU16 w with
      | none => rw [hw] at h; cases h
      | some mem =>
        rw [hw] at h
        obtain ⟨i, hvv, hi1, hi2, hcc⟩ := parseU16_eq_some.mp hv
        obtain ⟨j, hww, hj1, hj2, hmm⟩ := parseU16_eq_some.mp hw
        cases Option.some.inj h
        exact ⟨i, j, hvv, hww, hi1, hi2, hj1, hj2, hcc, hmm⟩
  · rintro ⟨i, j, rfl, rfl, hi1, hi2, hj1, hj2, hcpu, hmem⟩
    have hv : parseU16 (.num (.int i)) = some i.toNat :=
      parseU16_eq_some.mpr ⟨i, rfl, hi1, hi2, rfl⟩
    have hw : parseU16 (.num (.int j)) = some j.toNat :=
      parseU16_eq_some.mpr ⟨j, rfl, hj1, hj2, rfl⟩
    rw [hv, hw]
    show some (⟨i.toNat, j.toNat⟩ : ECSContainerLimits)
      = some (⟨lc, lm⟩ : ECSContainerLimits)
    have hc' : lc = i.toNat := hcpu
    have hm' : lm = j.toNat := hmem
    rw [hc', hm']

theorem limits_range_exact_witness :
    ECSContainerLimits.deserialize
        (.obj [("CPU", .num (.int 2)), ("Memory", .num (.int 0))])
      = some ⟨2, 0⟩ :=
  (limits_range_exact (.num (.int 2)) (.num (.int 0)) ⟨2, 0⟩).mpr
    ⟨2, 0, rfl, rfl, by decide, by decide, by decide, by decide, rfl, rfl⟩

/-- C4: when the environment variable is unset (or not readable as
valid text), `init` fails with `EnvVarNotSet` carrying the variable's
name, and the request trace is empty — no network call is made and no
metadata value is constructed. -/
theorem init_env_var_not_set
    (envVar : String → Option String) (get : String → FetchOutcome)
    (h : envVar ECS_METADATA_V4_ENV_VAR = none) :
    ECSMetadata.initModel envVar get =
      (.error (.EnvVarNotSet ECS_METADATA_V4_ENV_VAR), []) := by
  unfold ECSMetadata.initModel
  rw [h]

theorem init_env_var_not_set_witness :
    ((fun _ : String => (none : Option String)) ECS_METADATA_V4_ENV_VAR = none) ∧
      ECSMetadata.initModel (fun _ => none) (fun _ => .failure) =
        (.error (.EnvVarNotSet ECS_METADATA_V4_ENV_VAR), []) :=
  ⟨rfl, init_env_var_not_set _ _ rfl⟩

/-- C5, counterexample: a final status of `300` is outside the 2xx
success range, yet `init` does not fail — `error_for_status` only fires
on 400-599, so the body is parsed and a metadata value is returned. -/
theorem init_non_2xx_claim_cex :
    (¬ (200 ≤ 300 ∧ 300 ≤ 299)) ∧
      (ECSMetadata.initModel (fun _ => some "http://metadata")
          (fun _ => .response 300 (some goodBody))).fst
        = Except.ok ⟨⟨"abc123", "repo:tag",
            ⟨"production", "streamer", "x/task/production/XYZ", "streamer", "12"⟩,
            ⟨2, 0⟩⟩⟩ :=
  ⟨by decide, rfl⟩

/-- C5, amended: if the HTTP GET resolves to a response whose status is
a client or server error (400-599), `init` returns `HttpError` wrapping
the status error, the body is never parsed (the result is the same for
every body), and no metadata value is constructed. -/
theorem init_status_error
    (envVar : String → Option String) (get : String → FetchOutcome)
    (url : String) (status : Nat) (body : Option Json)
    (h1 : envVar ECS_METADATA_V4_ENV_VAR = some url)
    (h2 : get url = .response status body)
    (h3 : 400 ≤ status) (h4 : status ≤ 599) :
    ECSMetadata.initModel envVar get =
      (.error (.HttpError (.status status)), [url]) := by
  simp only [ECSMetadata.initModel, h1, h2]
  rw [if_pos ⟨h3, h4⟩]

theorem init_status_error_witness :
    ((fun _ : String => some "http://metadata") ECS_METADATA_V4_ENV_VAR
        = some "http://metadata") ∧
      ECSMetadata.initModel (fun _ => some "http://metadata")
          (fun _ => .response 404 (some goodBody)) =
        (.error (.HttpError (.status 404)), ["http://metadata"]) :=
  ⟨rfl, init_status_error _ _ _ 404 _ rfl rfl (by decide) (by decide)⟩

/-- C6: on a success status (2xx), a body that is valid JSON but does
not deserialize (required field missing or of the wrong type) makes
`init` return the transport/parse kind `HttpError`, and no metadata
value — not even a partial one — is produced. -/
theorem init_parse_failure
    (envVar : String → Option String) (get : String → FetchOutcome)
    (url : String) (status : Nat) (j : Json)
    (h1 : envVar ECS_METADATA_V4_ENV_VAR = some url)
    (h2 : get url = .response status (some j))
    (h3 : 200 ≤ status) (h4 : status ≤ 299)
    (h5 : ECSContainerMetadataV4.deserialize j = none) :
    ECSMetadata.initModel envVar get = (.error (.HttpError .decode), [url]) := by
  have hno : ¬ (400 ≤ status ∧ status ≤ 599) := by omega
  simp only [ECSMetadata.initModel, h1, h2]
  rw [if_neg hno]
  simp only [h5]

theorem init_parse_failure_witness :
    (ECSContainerMetadataV4.deserialize noDockerIdJson = none) ∧
      ECSMetadata.initModel (fun _ => some "http://metadata")
          (fun _ => .response 200 (some noDockerIdJson)) =
        (.error (.HttpError .decode), ["http://metadata"]) :=
  ⟨rfl, init_parse_failure _ _ _ 200 _ rfl rfl (by decide) (by decide) rfl⟩

/-- C10: `init` never surfaces the `FetchError` variant: every failing
run returns either `EnvVarNotSet` (with the variable's name) or an
`HttpError`. -/
theorem init_never_fetch_error
    (envVar : String → Option String) (get : String → FetchOutcome) :
    ((ECSMetadata.initModel envVar get).fst ≠ .error .FetchError) ∧
      ∀ e, (ECSMetadata.initModel envVar get).fst = .error e →
        (∃ name, e = .EnvVarNotSet name) ∨ ∃ k, e = .HttpError k := by
  have key : ∀ e, (ECSMetadata.initModel envVar get).fst = .error e →
      (∃ name, e = .EnvVarNotSet name) ∨ ∃ k, e = .HttpError k := by
    intro e h
    cases he : envVar ECS_METADATA_V4_ENV_VAR with
    | none =>
      simp only [ECSMetadata.initModel, he, Except.error.injEq] at h
      exact Or.inl ⟨_, h.symm⟩
    | some url =>
      cases hg : get url with
      | failure =>
        simp only [ECSMetadata.initModel, he, hg, Except.error.injEq] at h
        exact Or.inr ⟨_, h.symm⟩
      | response status body =>
        simp only [ECSMetadata.initModel, he, hg] at h
        by_cases hs : 400 ≤ status ∧ status ≤ 599
        · rw [if_pos hs] at h
          simp only [Except.error.injEq] at h
          exact Or.inr ⟨_, h.symm⟩
        · rw [if_neg hs] at h
          cases body with
          | none =>
            simp only [Except.error.injEq] at h
            exact Or.inr ⟨_, h.symm⟩
          | some j =>
            cases hd : ECSContainerMetadataV4.deserialize j with
            | none =>
              simp only [hd, Except.error.injEq] at h
              exact Or.inr ⟨_, h.symm⟩
            | some md =>
              simp only [hd] at h
              cases h
  refine ⟨fun hc => ?_, key⟩
  rcases key _ hc with ⟨name, hn⟩ | ⟨k, hk⟩
  · exact ECSMetadataError.noConfusion hn
  · exact ECSMetadataError.noConfusion hk

theorem init_never_fetch_error_witness :
    ((ECSMetadata.initModel (fun _ => none) (fun _ => .failure)).fst
        = .error (.EnvVarNotSet ECS_METADATA_V4_ENV_VAR)) ∧
      ((∃ name, ECSMetadataError.EnvVarNotSet ECS_METADATA_V4_ENV_VAR
          = .EnvVarNotSet name) ∨
        ∃ k, ECSMetadataError.EnvVarNotSet ECS_METADATA_V4_ENV_VAR = .HttpError k) :=
  ⟨rfl, (init_never_fetch_error (fun _ => none) (fun _ => .failure)).2 _ rfl⟩

end ECS
